import Mathlib

/-!
Verification of the course-catalog core logic (`src/CourseCatalog.jsx`):
the normaliser (raw JSON records → canonical courses), the filter engine
and the grouping stage, embedded shallowly as pure Lean functions.

JavaScript strings are modelled as Lean `String`; the JS operations
`includes`, `startsWith`, `toLowerCase`, the falsy-coalescing `||` and the
nullish-coalescing `??` operators are modelled explicitly below.
Optional / possibly-`undefined` JSON fields are modelled with `Option`.
-/

namespace CourseCatalog

/-- Model of the JS expression `a || b` on an optional string `a`:
`undefined`, `null` and the empty string are falsy. -/
def jsOrS : Option String → String → String
  | none, d => d
  | some s, d => if s = "" then d else s

/-- Model of the JS nullish coalescing `a ?? b`: only `undefined`/`null`
fall through to the default; an empty string is kept. -/
def jsNullish : Option String → String → String
  | none, d => d
  | some s, _ => s

/-- Model of JS `s.startsWith(pre)`: code-unit-wise prefix test. -/
def jsStartsWith (s pre : String) : Bool :=
  List.isPrefixOf pre.toList s.toList

/-- Recursive substring search on character lists: `hasSub nee hay` is true
iff `nee` occurs contiguously inside `hay`. -/
def hasSub (nee : List Char) : List Char → Bool
  | [] => List.isPrefixOf nee []
  | c :: rest => List.isPrefixOf nee (c :: rest) || hasSub nee rest

/-- Model of JS `hay.includes(nee)`: substring containment. -/
def jsIncludes (hay nee : String) : Bool :=
  hasSub nee.toList hay.toList

/-- Model of JS `s.toLowerCase()`: character-wise lowercasing. -/
def jsToLowerCase (s : String) : String :=
  String.mk (s.toList.map Char.toLower)

/-- A raw catalog record, the external JSON schema (`courses.json` entries).
Fields the scraper may omit are `Option`s. -/
structure Raw where
  code : String
  name : String
  subject : String
  sub_subject : Option String
  credits : Option String
  duration : Option String
  grades : List Nat
  prerequisites : Option String
  diploma_category : Option String
  fees : Option String
  notes : Option String
  description : Option String
  tracks : List String
deriving DecidableEq, Repr

/-- The `department` derivation (`CourseCatalog.jsx` lines 9-13):
English sub-subjects collapse into one "English" bucket, otherwise
`sub_subject || subject`. -/
def department (c : Raw) : String :=
  if c.subject = "English" then "English" else jsOrS c.sub_subject c.subject

/-- A canonical course, the component schema produced by the normaliser. -/
structure Course where
  id : String
  name : String
  code : String
  department : String
  subject : String
  tracks : List String
  grades : List Nat
  length : String
  credits : String
  prerequisite : String
  diploma : String
  description : String
  notes : String
  fees : String
  ap : Bool
deriving DecidableEq, Repr

/-- Normalisation of one raw record (the mapping function of the
`COURSES = rawCourses.map(...)` expression, lines 15-31). -/
def normalizeOne (c : Raw) : Course :=
  { id := c.code
    name := c.name
    code := c.code
    department := department c
    subject := c.subject
    tracks := c.tracks
    grades := c.grades
    length := jsOrS c.duration "—"
    credits := jsNullish c.credits "—"
    prerequisite := jsOrS c.prerequisites "None"
    diploma := jsOrS c.diploma_category "—"
    description := jsOrS c.description ""
    notes := jsOrS c.notes ""
    fees := jsOrS c.fees ""
    ap := jsStartsWith c.name "AP " }

/-- The whole normaliser: `rawCourses.map(...)`. -/
def normalize (l : List Raw) : List Course :=
  l.map normalizeOne

/-- The filter state owned by the view: grade toggles (a JS `Set`,
modelled as a `Finset`), department selector, search box and AP toggle. -/
structure FilterState where
  selectedGrades : Finset Nat
  selectedDept : String
  searchQuery : String
  apOnly : Bool

/-- The text-match predicate of the filter (lines 90-96): the lower-cased
query is searched in the lower-cased `name`, `code`, `department` and
`description` fields, OR-ed together. -/
def textMatch (query : String) (c : Course) : Bool :=
  let q := jsToLowerCase query
  jsIncludes (jsToLowerCase c.name) q ||
  jsIncludes (jsToLowerCase c.code) q ||
  jsIncludes (jsToLowerCase c.department) q ||
  jsIncludes (jsToLowerCase c.description) q

/-- The per-course filter predicate (the callback of `COURSES.filter`,
lines 85-99), with the source's early-return structure. -/
def matchesFilter (st : FilterState) (c : Course) : Bool :=
  if !(c.grades.any fun g => decide (g ∈ st.selectedGrades)) then false
  else if st.selectedDept != "All" && c.department != st.selectedDept then false
  else if st.apOnly && !c.ap then false
  else if st.searchQuery != "" then textMatch st.searchQuery c
  else true

/-- The filter engine (`filtered`, lines 84-100), parametrised by the
canonical course list. -/
def filtered (st : FilterState) (courses : List Course) : List Course :=
  courses.filter (matchesFilter st)

/-- The spec's description of inclusion: grade-match AND dept-match AND
ap-match AND (query-empty OR text-match-any-field), as one conjunction. -/
def specIncluded (st : FilterState) (c : Course) : Bool :=
  (c.grades.any fun g => decide (g ∈ st.selectedGrades)) &&
  (st.selectedDept == "All" || c.department == st.selectedDept) &&
  (!st.apOnly || c.ap) &&
  (st.searchQuery == "" || textMatch st.searchQuery c)

/-- First-seen deduplication of a key list, modelling the insertion order
of string keys in the JS object `map` of the grouping stage. -/
def firstKeys : List String → List String
  | [] => []
  | d :: rest => d :: List.filter (fun x => x != d) (firstKeys rest)

/-- Comparison of department buckets by department name, modelling the
`(a, b) => a[0].localeCompare(b[0])` comparator. -/
def deptLe (a b : String × List Course) : Prop := a.1 ≤ b.1

instance : DecidableRel deptLe := fun a b => inferInstanceAs (Decidable (a.1 ≤ b.1))

instance : IsTotal (String × List Course) deptLe := ⟨fun a b => le_total a.1 b.1⟩

instance : IsTrans (String × List Course) deptLe := ⟨fun _ _ _ h h2 => le_trans h h2⟩

/-- The grouping stage (`grouped`, lines 102-109): build the department
buckets in first-seen key order, each bucket holding that department's
courses in input order, then sort the buckets by department name. -/
def grouped (l : List Course) : List (String × List Course) :=
  List.insertionSort deptLe
    ((firstKeys (l.map fun c => c.department)).map
      fun d => (d, l.filter fun c => c.department == d))

/-- A canonical course whose `grades` field may be absent (`undefined`),
for analysing the unguarded member access in the grade check. -/
structure CourseU where
  id : String
  name : String
  code : String
  department : String
  subject : String
  tracks : List String
  grades : Option (List Nat)
  length : String
  credits : String
  prerequisite : String
  diploma : String
  description : String
  notes : String
  fees : String
  ap : Bool
deriving DecidableEq, Repr

/-- The text-match predicate over possibly-gradeless courses. -/
def textMatchU (query : String) (c : CourseU) : Bool :=
  let q := jsToLowerCase query
  jsIncludes (jsToLowerCase c.name) q ||
  jsIncludes (jsToLowerCase c.code) q ||
  jsIncludes (jsToLowerCase c.department) q ||
  jsIncludes (jsToLowerCase c.description) q

/-- The filter predicate under JS semantics when `grades` may be absent:
`c.grades.some(...)` on `undefined` throws a `TypeError`, modelled as
`Except.error`; on an array (empty included) it evaluates normally. -/
def matchesFilterU (st : FilterState) (c : CourseU) : Except String Bool :=
  match c.grades with
  | none => Except.error "TypeError: c.grades is undefined"
  | some gs =>
    Except.ok
      (if !(gs.any fun g => decide (g ∈ st.selectedGrades)) then false
       else if st.selectedDept != "All" && c.department != st.selectedDept then false
       else if st.apOnly && !c.ap then false
       else if st.searchQuery != "" then textMatchU st.searchQuery c
       else true)

/-- Model of `Array.filter` under JS semantics with a possibly-throwing
callback: elements are visited left to right, the first thrown error
aborts the whole computation. -/
def filteredU (st : FilterState) : List CourseU → Except String (List CourseU)
  | [] => Except.ok []
  | c :: rest =>
    match matchesFilterU st c with
    | Except.error e => Except.error e
    | Except.ok keep =>
      match filteredU st rest with
      | Except.error e => Except.error e
      | Except.ok r => Except.ok (if keep then c :: r else r)

/-- Sample raw record: a plain Science course. -/
def rawBio : Raw :=
  { code := "SCI101", name := "Biology", subject := "Science", sub_subject := none,
    credits := some "1.0", duration := some "Year", grades := [9, 10],
    prerequisites := none, diploma_category := some "Science", fees := none,
    notes := none, description := some "Intro biology.", tracks := [] }

/-- Sample raw record: an AP course. -/
def rawAPBio : Raw :=
  { rawBio with code := "SCI201", name := "AP Biology", grades := [11, 12] }

/-- Sample raw record: a name that merely begins with the letters "AP". -/
def rawApplied : Raw :=
  { rawBio with
    code := "MAT150", name := "APPLIED Math", subject := "Mathematics",
    sub_subject := some "Mathematics", description := some "Practical math." }

/-- A small canonical dataset used to instantiate the theorems. -/
def demoCourses : List Course := normalize [rawBio, rawAPBio]

/-- The view's default filter state: all grades, all departments, empty
query, AP toggle off. -/
def stDefault : FilterState := ⟨{9, 10, 11, 12}, "All", "", false⟩

/-- A raw record whose `grades` field may be absent (`undefined` in the
JSON), as contemplated by the spec's defensive requirement. -/
structure RawU where
  code : String
  name : String
  subject : String
  sub_subject : Option String
  credits : Option String
  duration : Option String
  grades : Option (List Nat)
  prerequisites : Option String
  diploma_category : Option String
  fees : Option String
  notes : Option String
  description : Option String
  tracks : List String
deriving DecidableEq, Repr

/-- The department derivation on possibly-gradeless raw records (it never
reads `grades`). -/
def departmentU (c : RawU) : String :=
  if c.subject = "English" then "English" else jsOrS c.sub_subject c.subject

/-- Normalisation of a possibly-gradeless raw record: identical to
`normalizeOne`, with `grades` carried through verbatim (so an absent field
stays absent on the canonical course). -/
def normalizeOneU (c : RawU) : CourseU :=
  { id := c.code
    name := c.name
    code := c.code
    department := departmentU c
    subject := c.subject
    tracks := c.tracks
    grades := c.grades
    length := jsOrS c.duration "—"
    credits := jsNullish c.credits "—"
    prerequisite := jsOrS c.prerequisites "None"
    diploma := jsOrS c.diploma_category "—"
    description := jsOrS c.description ""
    notes := jsOrS c.notes ""
    fees := jsOrS c.fees ""
    ap := jsStartsWith c.name "AP " }

/-- A raw record with `grades` absent. -/
def rawNoGrades : RawU :=
  { code := "X1", name := "Mystery", subject := "Science", sub_subject := none,
    credits := none, duration := none, grades := none, prerequisites := none,
    diploma_category := none, fees := none, notes := none, description := none,
    tracks := [] }

/-- A raw record with `grades` present but empty. -/
def rawEmptyGrades : RawU := { rawNoGrades with grades := some [] }

theorem hasSub_iff (nee hay : List Char) : hasSub nee hay = true ↔ nee <:+: hay := by
  induction hay with
  | nil => simp [hasSub, List.isPrefixOf_iff_prefix]
  | cons c rest ih =>
    simp [hasSub, List.isPrefixOf_iff_prefix, ih, List.infix_cons_iff]

theorem jsIncludes_iff (hay nee : String) :
    jsIncludes hay nee = true ↔ nee.toList <:+: hay.toList := by
  simp [jsIncludes, hasSub_iff]

theorem matchesFilter_eq (st : FilterState) (c : Course) :
    matchesFilter st c = specIncluded st c := by
  unfold matchesFilter specIncluded
  cases hg : (c.grades.any fun g => decide (g ∈ st.selectedGrades)) <;>
    cases hd : (st.selectedDept == "All") <;>
      cases hcd : (c.department == st.selectedDept) <;>
        cases ha : st.apOnly <;>
          cases hap : c.ap <;>
            cases hq : (st.searchQuery == "") <;>
              simp [hg, hd, hcd, ha, hap, hq, bne]

theorem mem_firstKeys (x : String) (l : List String) : x ∈ firstKeys l ↔ x ∈ l := by
  induction l with
  | nil => simp [firstKeys]
  | cons d rest ih =>
    by_cases hx : x = d
    · simp [firstKeys, hx]
    · simp [firstKeys, hx, List.mem_filter, ih, bne_iff_ne]

theorem nodup_firstKeys (l : List String) : (firstKeys l).Nodup := by
  induction l with
  | nil => simp [firstKeys]
  | cons d rest ih =>
    refine List.nodup_cons.mpr ⟨?_, ih.filter _⟩
    intro hmem
    have h := (List.mem_filter.mp hmem).2
    simp at h

theorem matchesFilterU_empty (st : FilterState) (c : CourseU)
    (h : c.grades = some []) : matchesFilterU st c = Except.ok false := by
  simp [matchesFilterU, h]

/-- C1: the filter returns exactly the courses for which grade-match AND
dept-match AND ap-match AND (query empty OR text-match) holds, preserving
the input list's order (the output is a sublist of the input). -/
theorem C1_filter_exact_and_ordered (st : FilterState) (l : List Course) :
    filtered st l = List.filter (specIncluded st) l ∧
    List.Sublist (filtered st l) l := by
  constructor
  · exact List.filter_congr fun c _ => matchesFilter_eq st c
  · exact List.filter_sublist l

/-- C2: for a non-empty query, the text-match predicate holds iff the
lower-cased query occurs as a substring of at least one of the four fields
`name`, `code`, `department`, `description`, compared case-insensitively. -/
theorem C2_textMatch_iff (c : Course) (q : String) (_hq : q ≠ "") :
    textMatch q c = true ↔
      ((jsToLowerCase q).toList <:+: (jsToLowerCase c.name).toList ∨
       (jsToLowerCase q).toList <:+: (jsToLowerCase c.code).toList ∨
       (jsToLowerCase q).toList <:+: (jsToLowerCase c.department).toList ∨
       (jsToLowerCase q).toList <:+: (jsToLowerCase c.description).toList) := by
  simp [textMatch, jsIncludes_iff, or_assoc]

theorem C2_witness : textMatch "Bio" (normalizeOne rawBio) = true :=
  (C2_textMatch_iff (normalizeOne rawBio) "Bio" (by decide)).mpr (Or.inl (by decide))

/-- C3: the grouping stage returns department buckets sorted by department
name, each bucket holding exactly that department's courses in the order
they had in the filtered input; every input course lands in its bucket,
department keys are pairwise distinct, and an empty input yields the empty
sequence. -/
theorem C3_grouped_spec (l : List Course) :
    List.Sorted deptLe (grouped l) ∧
    (∀ p ∈ grouped l, p.2 = l.filter fun c => c.department == p.1) ∧
    (∀ c ∈ l, ∃ p ∈ grouped l, p.1 = c.department ∧ c ∈ p.2) ∧
    List.Nodup (List.map Prod.fst (grouped l)) ∧
    grouped ([] : List Course) = [] := by
  refine ⟨List.sorted_insertionSort deptLe _, ?_, ?_, ?_, rfl⟩
  · intro p hp
    rw [grouped, List.mem_insertionSort] at hp
    obtain ⟨d, _, rfl⟩ := List.mem_map.mp hp
    rfl
  · intro c hc
    refine ⟨(c.department, l.filter fun x => x.department == c.department), ?_, rfl, ?_⟩
    · rw [grouped, List.mem_insertionSort]
      exact List.mem_map_of_mem _ ((mem_firstKeys _ _).mpr (List.mem_map_of_mem _ hc))
    · exact List.mem_filter.mpr ⟨hc, by simp⟩
  · have hperm : List.Perm (List.map Prod.fst (grouped l))
        (List.map Prod.fst
          ((firstKeys (l.map fun c => c.department)).map
            (fun d => (d, l.filter fun c => c.department == d)))) :=
      (List.perm_insertionSort deptLe _).map Prod.fst
    refine hperm.nodup_iff.mpr ?_
    rw [List.map_map]
    have hcomp :
        (Prod.fst ∘ fun d => (d, List.filter (fun c => c.department == d) l)) =
          fun d => d := rfl
    rw [hcomp]
    simpa using nodup_firstKeys (l.map fun c => c.department)

theorem C3_witness :
    (∃ p ∈ grouped demoCourses,
      p.1 = (normalizeOne rawBio).department ∧ normalizeOne rawBio ∈ p.2) ∧
    grouped ([] : List Course) = [] :=
  ⟨(C3_grouped_spec demoCourses).2.2.1 (normalizeOne rawBio) (by decide),
   (C3_grouped_spec []).2.2.2.2⟩

/-- C5: the derived department is "English" whenever the subject is
"English" (whatever the sub-subject); otherwise it is the sub-subject when
present and non-empty, and the subject otherwise. -/
theorem C5_department_spec (c : Raw) :
    (c.subject = "English" → department c = "English") ∧
    (c.subject ≠ "English" → ∀ s, c.sub_subject = some s → s ≠ "" →
      department c = s) ∧
    (c.subject ≠ "English" → (c.sub_subject = none ∨ c.sub_subject = some "") →
      department c = c.subject) := by
  refine ⟨fun h => by simp [department, h], fun h s hs hne => ?_, fun h hc => ?_⟩
  · simp [department, h, jsOrS, hs, hne]
  · rcases hc with hc | hc <;> simp [department, h, jsOrS, hc]

theorem C5_witness :
    department { rawBio with subject := "English", sub_subject := some "Literature" } =
      "English" ∧
    department rawBio = "Science" ∧
    department rawApplied = "Mathematics" := by
  refine ⟨(C5_department_spec _).1 rfl, ?_, ?_⟩
  · exact (C5_department_spec rawBio).2.2 (by decide) (Or.inl rfl)
  · exact (C5_department_spec rawApplied).2.1 (by decide) "Mathematics" rfl (by decide)

/-- C6: the derived `ap` flag is true iff the name starts with the exact
case-sensitive prefix "AP "; in particular "AP Biology" yields true while
"APPLIED Math" yields false. -/
theorem C6_ap_spec (c : Raw) :
    ((normalizeOne c).ap = true ↔ "AP ".toList <+: c.name.toList) ∧
    (normalizeOne rawAPBio).ap = true ∧
    (normalizeOne rawApplied).ap = false := by
  refine ⟨?_, by decide, by decide⟩
  simp [normalizeOne, jsStartsWith, List.isPrefixOf_iff_prefix]

/-- C7: with an empty grade selection the filter returns the empty list,
whatever the department, search query and AP toggle are. -/
theorem C7_empty_grades_empty_result (dept q : String) (ap : Bool)
    (l : List Course) : filtered ⟨∅, dept, q, ap⟩ l = [] := by
  simp [filtered, List.filter_eq_nil_iff, matchesFilter]

/-- C8: with the default state (all four grades, department "All", empty
query, AP off), every course whose grades form a non-empty subset of
{9, 10, 11, 12} passes, so the whole list is returned unchanged. -/
theorem C8_default_state_is_identity (l : List Course)
    (h : ∀ c ∈ l, c.grades ≠ [] ∧ ∀ g ∈ c.grades, g ∈ ({9, 10, 11, 12} : Finset Nat)) :
    filtered ⟨{9, 10, 11, 12}, "All", "", false⟩ l = l := by
  unfold filtered
  rw [List.filter_eq_self]
  intro c hc
  obtain ⟨hne, hsub⟩ := h c hc
  obtain ⟨g, hg⟩ := List.exists_mem_of_ne_nil c.grades hne
  have hgm : g ∈ ({9, 10, 11, 12} : Finset Nat) := hsub g hg
  rw [matchesFilter_eq]
  simp only [specIncluded, Bool.and_eq_true]
  refine ⟨⟨⟨?_, by simp⟩, by simp⟩, by simp⟩
  exact List.any_eq_true.mpr ⟨g, hg, by simpa using hgm⟩

theorem C8_witness :
    filtered ⟨{9, 10, 11, 12}, "All", "", false⟩ demoCourses = demoCourses :=
  C8_default_state_is_identity demoCourses (by decide)

/-- C9: normalising a record with all optional fields absent gives the same
canonical course as normalising it with the documented defaults supplied
explicitly (duration "—", credits "—", prerequisites "None",
diploma_category "—", description/notes/fees ""). -/
theorem C9_defaults_noop (r : Raw) :
    normalizeOne { r with
      duration := none, credits := none, prerequisites := none,
      diploma_category := none, description := none, notes := none,
      fees := none } =
    normalizeOne { r with
      duration := some "—", credits := some "—", prerequisites := some "None",
      diploma_category := some "—", description := some "", notes := some "",
      fees := some "" } := by
  simp [normalizeOne, jsOrS, jsNullish, department]

/-- C10: filtering is monotone in the grade selection: enlarging the set of
selected grades keeps every previously included course included, and the
smaller selection's result is a sublist of the larger selection's. -/
theorem C10_grade_monotone (l : List Course) (S T : Finset Nat)
    (dept q : String) (ap : Bool) (hST : S ⊆ T) :
    (∀ c : Course, matchesFilter ⟨S, dept, q, ap⟩ c = true →
      matchesFilter ⟨T, dept, q, ap⟩ c = true) ∧
    List.Sublist (filtered ⟨S, dept, q, ap⟩ l) (filtered ⟨T, dept, q, ap⟩ l) := by
  have hpt : ∀ c : Course, matchesFilter ⟨S, dept, q, ap⟩ c = true →
      matchesFilter ⟨T, dept, q, ap⟩ c = true := by
    intro c hc
    rw [matchesFilter_eq] at hc ⊢
    simp only [specIncluded, Bool.and_eq_true] at hc ⊢
    obtain ⟨⟨⟨h1, h2⟩, h3⟩, h4⟩ := hc
    refine ⟨⟨⟨?_, h2⟩, h3⟩, h4⟩
    obtain ⟨g, hg, hgS⟩ := List.any_eq_true.mp h1
    exact List.any_eq_true.mpr ⟨g, hg, by simpa using hST (by simpa using hgS)⟩
  exact ⟨hpt, List.monotone_filter_right l fun c hc => hpt c hc⟩

theorem C10_witness :
    List.Sublist (filtered ⟨{9}, "All", "", false⟩ demoCourses)
      (filtered ⟨{9, 10}, "All", "", false⟩ demoCourses) :=
  (C10_grade_monotone demoCourses {9} {9, 10} "All" "" false (by decide)).2

/-- C4 counterexample: a record whose `grades` field is absent makes the
filter crash (the unguarded `c.grades.some(...)` throws a TypeError) rather
than being silently excluded, refuting the claim for absent `grades`. -/
theorem C4_counterexample :
    filteredU stDefault [normalizeOneU rawNoGrades] =
      Except.error "TypeError: c.grades is undefined" := rfl

/-- C4 (amended): a record whose `grades` field is an empty list is
excluded from all results without any error: its grade check evaluates to
false, and no successfully computed result contains such a record. Records
with `grades` absent are not guarded and crash the filter instead. -/
theorem C4_empty_grades_excluded (st : FilterState) :
    (∀ c : CourseU, c.grades = some [] → matchesFilterU st c = Except.ok false) ∧
    (∀ l r : List CourseU, filteredU st l = Except.ok r →
      ∀ c ∈ r, c.grades ≠ some []) := by
  refine ⟨fun c hc => matchesFilterU_empty st c hc, ?_⟩
  intro l
  induction l with
  | nil =>
    intro r hr c hc
    simp only [filteredU] at hr
    cases hr
    simp at hc
  | cons a rest ih =>
    intro r hr c hc
    simp only [filteredU] at hr
    cases hm : matchesFilterU st a with
    | error e => rw [hm] at hr; cases hr
    | ok keep =>
      rw [hm] at hr
      cases hrest : filteredU st rest with
      | error e => rw [hrest] at hr; cases hr
      | ok r2 =>
        rw [hrest] at hr
        have hr2 : (if keep then a :: r2 else r2) = r := by
          cases hr; rfl
        cases keep with
        | false =>
          subst hr2
          exact ih r2 hrest c hc
        | true =>
          subst hr2
          rcases List.mem_cons.mp hc with rfl | hc2
          · intro hag
            rw [matchesFilterU_empty st c hag] at hm
            cases hm
          · exact ih r2 hrest c hc2

theorem C4_witness :
    matchesFilterU stDefault (normalizeOneU rawEmptyGrades) = Except.ok false :=
  (C4_empty_grades_excluded stDefault).1 _ rfl

end CourseCatalog
